import Mathlib

/-!
# Pseudo-interstitial redirect server (`redir.go`): a shallow embedding

Go strings are modelled by Lean `String` (a list of Unicode scalar values; a Go
string that is valid UTF-8).  The library routines of `strings`, `strconv`,
`fmt`, `regexp` and `sort` that `redir.go` calls are modelled by executable
functions on the character list; for valid UTF-8 their byte-level behaviour and
the character-level behaviour below agree (UTF-8 is self-synchronising and
preserves order).  Go `int` is modelled by `Int`: the only arithmetic in
`redir.go` is the increment of a loop counter or segment number, which stays
within the number of iterations a run completes, far below `2^63`.  Go
`map[string]T` is modelled by an association list with unique keys (`AList`),
whose list order stands for the unspecified iteration order of a Go map.
Handlers are modelled by the new state and the ordered list of calls they make
on the response, the log and the network; what the network calls of
`sendUdpBeacon` return is an input (`Network`).
-/

namespace Redir

/-! ## Library routines -/

/-- Go `strings.HasPrefix(s, p)`: `len(s) >= len(p) && s[:len(p)] == p`. -/
def stringsHasPrefix (s p : String) : Bool :=
  decide (p.data.length ≤ s.data.length) && decide (s.data.take p.data.length = p.data)

/-- Go `strings.TrimPrefix(s, p)`: `s` without the leading `p`, or `s` itself. -/
def stringsTrimPrefix (s p : String) : String :=
  if stringsHasPrefix s p then ⟨s.data.drop p.data.length⟩ else s

/-- First-occurrence replacement on character lists: the text before the first
occurrence of `old`, then `new`, then the text after that occurrence. -/
def replaceFirstChars (old new : List Char) : List Char → List Char
  | [] => if old = [] then new else []
  | c :: t =>
    if (c :: t).take old.length = old then new ++ (c :: t).drop old.length
    else c :: replaceFirstChars old new t

/-- Go `strings.Replace(s, old, new, 1)`. -/
def stringsReplace1 (s old new : String) : String :=
  ⟨replaceFirstChars old.data new.data s.data⟩

/-- The ASCII digit of `d < 10`, as in Go `byte('0' + d)`. -/
def digitChar (d : Nat) : Char := Char.ofNat (48 + d)

/-- The loop of Go `strconv.formatBits` in base 10: digits are produced from the
least significant one and prepended.  The first argument bounds the number of
iterations; `formatNat` passes enough. -/
def formatDigits : Nat → Nat → List Char → List Char
  | 0, u, acc => digitChar (u % 10) :: acc
  | fuel + 1, u, acc =>
    if 10 ≤ u then formatDigits fuel (u / 10) (digitChar (u % 10) :: acc)
    else digitChar u :: acc

/-- Decimal text of a natural number. -/
def formatNat (u : Nat) : List Char := formatDigits u u []

/-- Go `strconv.Itoa(i)` (also `fmt.Sprintf("%d", i)`): decimal text, with a
leading `-` for a negative number. -/
def strconvItoa (i : Int) : String :=
  if i < 0 then ⟨'-' :: formatNat i.natAbs⟩ else ⟨formatNat i.natAbs⟩

/-- Go `fmt.Sprintf("%s_%d", s, d)`. -/
def sprintfKey (s : String) (d : Int) : String := s ++ "_" ++ strconvItoa d

/-- The value a decimal text denotes (used to show that decimal texts of
different numbers differ). -/
def digitsValue (l : List Char) : Nat :=
  l.foldl (fun a c => 10 * a + (c.toNat - 48)) 0

/-- The text `%sn%`. -/
def snMark : List Char := ['%', 's', 'n', '%']

/-- The literal part of the pattern `/pireplval/(?P<key_value>.+)`. -/
def piReplValLiteral : List Char := "/pireplval/".data

/-- Leftmost match of the unanchored pattern `/pireplval/(?P<key_value>.+)` in a
character list, as Go `regexp` finds it: the first position at which the literal
`/pireplval/` is followed by at least one character other than a line feed (`.`
does not match `\n`); the group is the longest run of such characters (`+` is
greedy).  The result is the whole match and the group. -/
def regexpFindChars : List Char → Option (List Char × List Char)
  | [] => none
  | c :: t =>
    if (c :: t).take piReplValLiteral.length = piReplValLiteral ∧
        ((c :: t).drop piReplValLiteral.length).takeWhile (fun x => x != '\n') ≠ [] then
      some (piReplValLiteral
              ++ ((c :: t).drop piReplValLiteral.length).takeWhile (fun x => x != '\n'),
            ((c :: t).drop piReplValLiteral.length).takeWhile (fun x => x != '\n'))
    else regexpFindChars t

/-- Go `piReplValRegexp.FindStringSubmatch(path)`: the whole match and the
group, or the empty slice when there is no match. -/
def findStringSubmatch (path : String) : List String :=
  match regexpFindChars path.data with
  | none => []
  | some (whole, group) => [⟨whole⟩, ⟨group⟩]

/-- Go `piReplValRegexp.SubexpNames()`. -/
def subexpNames : List String := ["", "key_value"]

/-- Go `sort.SliceStable` on a slice of strings: a stable sort by `less`
(insertion of each element before the first later element that is not less than
it). -/
def sortSliceStable (less : String → String → Prop) [DecidableRel less]
    (l : List String) : List String :=
  l.insertionSort (fun a b => ¬ less b a)

/-! ## `redir.go` -/

/-- String template for break segments (`redir.go:33`). -/
def breakBaseName : String := "%bn%adbreak%ut%_%sn%"

/-- Source `iif` (`redir.go:72`). -/
def iif (cond : Bool) (yes no : String) : String :=
  if cond then yes else no

/-- Source `buildAdSegmentLink` (`redir.go:86`). -/
def buildAdSegmentLink (breakNum : Int) (userToken : String) (segNum : Int) : String :=
  let destString := stringsReplace1 breakBaseName "%bn%"
    (iif (decide (breakNum > 0)) (strconvItoa breakNum) "")
  let destString := stringsReplace1 destString "%ut%" userToken
  stringsReplace1 destString "%sn%" (strconvItoa segNum)


/-- Go `map[string]string`. -/
abbrev StringMap := AList (fun _ : String => String)

/-- Go `map[string][]string`. -/
abbrev AdsMap := AList (fun _ : String => List String)

/-- The package-level variables of `redir.go` that handlers read and write
(`redir.go:40-46`). -/
structure State where
  segmentMappings : StringMap
  adBreakMappings : StringMap
  adsMap : AdsMap

/-- Source `adBreakPrefixes` (`redir.go:43`). -/
def adBreakPrefixes : List String := ["1adbreak", "2adbreak", "3adbreak", "4adbreak"]

/-- Source `udpListener` (`redir.go:27`). -/
def udpListener : String := "localhost:1234"

/-- Source `segmentMap` (`redir.go:55`). -/
structure SegmentMap where
  ID : String
  Dest : String

/-- Source `TemplateData` (`redir.go:92`). -/
structure TemplateData where
  SegmentNames : List String
  SegmentMappings : StringMap
  AdBreaks : List String
  AdBreakMappings : StringMap
  deriving DecidableEq

/-- Source `gatherTemplateData` (`redir.go:102`): the keys are collected in the
map's iteration order and then sorted. -/
def gatherTemplateData (st : State) : TemplateData :=
  let segmentNames := st.segmentMappings.keys.foldl (fun acc k => acc ++ [k]) []
  let segmentNames := sortSliceStable (fun a b => a < b) segmentNames
  { SegmentNames := segmentNames
    SegmentMappings := st.segmentMappings
    AdBreaks := adBreakPrefixes
    AdBreakMappings := st.adBreakMappings }

/-- Source `addAdByTemplate` (`redir.go:119`), on the segment-mapping table.  The
loop state is the pair of `segNum` and the table. -/
def addAdByTemplate (segmentMappings : StringMap) (_name : String) (segmentTemplate : String)
    (segmentCount : Int) (destinationBreak : Int) (hasInit : Bool) : StringMap :=
  let start : Int × StringMap := (1, segmentMappings)
  let afterInit : Int × StringMap :=
    if hasInit then
      (start.1 + 1,
        start.2.insert (buildAdSegmentLink destinationBreak "" start.1)
          (segmentTemplate ++ "_init.mp4"))
    else start
  let final := (List.range segmentCount.toNat).foldl
    (fun (st : Int × StringMap) (i : Nat) =>
      (st.1 + 1,
        st.2.insert (buildAdSegmentLink destinationBreak "" st.1)
          (segmentTemplate ++ strconvItoa (i : Int) ++ ".m4s")))
    afterInit
  final.2

/-- Source `redirectLookup` (`redir.go:138`): target, token and error (`none`
is Go `nil`). -/
def redirectLookup (segmentMappings : StringMap) (path : String) :
    String × String × Option String :=
  let found := findStringSubmatch path
  if found.length = 0 then ("http:/" ++ path, "", none)
  else
    let hashMap : StringMap := subexpNames.enum.foldl
      (fun (hm : StringMap) (p : Nat × String) =>
        if p.1 > 0 ∧ p.1 < found.length then hm.insert p.2 (found.getD p.1 "") else hm)
      ∅
    let key := (hashMap.lookup "key_value").getD ""
    match segmentMappings.lookup key with
    | none => (path, key, some ("segment-key not in map: %s" ++ key))
    | some targetURL => (targetURL, key, none)

/-- What a handler does to the outside world, in order. -/
inductive Effect where
  /-- Go `http.Error(w, body, code)`. -/
  | httpError (body : String) (code : Nat)
  /-- Go `log.Print(msg)`. -/
  | logPrint (msg : String)
  /-- Go `conn.Write([]byte(msg))` on a UDP connection dialled to `addr`
  (`redir.go:418`); the connection is closed when `sendUdpBeacon` returns. -/
  | udpWrite (addr : String) (msg : String)
  /-- Go `fmt.Printf` with the formatted text `msg`. -/
  | printf (msg : String)
  /-- Go `panic(err)`: the handler is aborted, nothing after it is executed. -/
  | panic (err : String)
  /-- The call `http.Redirect(w, r, target, code)`; the `Location` header that
  the library derives from `target` is not modelled. -/
  | httpRedirect (target : String) (code : Nat)
  /-- Source `proxyRequest(w, r, target)`. -/
  | proxyRequest (target : String)
  /-- The view data is written to the response as JSON. -/
  | writeJSON (data : TemplateData)
  deriving DecidableEq

/-- A request as the handlers read it: method, URL path, what `io.ReadAll` gives
for the body (the bytes, or the text of the error), and the `%v` rendering of
the body reader. -/
structure Request where
  method : String
  path : String
  body : Except String String
  bodyText : String

/-- Go `http.StatusBadRequest`. -/
def statusBadRequest : Nat := 400

/-- Go `http.StatusInternalServerError`. -/
def statusInternalServerError : Nat := 500

/-- Go `http.StatusSeeOther`. -/
def statusSeeOther : Nat := 303

/-- What the three network calls of one run of `sendUdpBeacon` return: the error
of `net.ResolveUDPAddr`, of `net.DialUDP` and of `conn.Write` (`none` is Go
`nil`). -/
structure Network where
  resolveErr : Option String
  dialErr : Option String
  writeErr : Option String

/-- Source `sendUdpBeacon` (`redir.go:401`).  The result is `.error err` when the
function panics with `err`, and otherwise what it did before it returned:
nothing when the configured address is shorter than 8; a panic when the address
does not resolve; a printed line and no datagram when the dial fails; else the
datagram, followed by a printed line when the write fails. -/
def sendUdpBeacon (net : Network) (message : String) : Except String (List Effect) :=
  if udpListener.length < 8 then .ok []
  else
    match net.resolveErr with
    | some err => .error err
    | none =>
      match net.dialErr with
      | some _ =>
        .ok [Effect.printf ("UDP Beacon Error: Could not resolve " ++ udpListener ++ "\n")]
      | none =>
        match net.writeErr with
        | some _ =>
          .ok [Effect.udpWrite udpListener message,
            Effect.printf ("UDP Beacon Error: Could not send to " ++ udpListener ++ "\n")]
        | none => .ok [Effect.udpWrite udpListener message]

/-- Source `redirectHandler` (`redir.go:159`); `net` is what the network calls of
`sendUdpBeacon` return during this request.  A panic of `sendUdpBeacon` ends the
handler. -/
def redirectHandler (proxyMode : Bool) (net : Network) (st : State) (r : Request) :
    List Effect :=
  if r.method ≠ "GET" then
    [Effect.httpError ("Bad request method for pireplval: " ++ r.method) statusBadRequest]
  else
    match redirectLookup st.segmentMappings r.path with
    | (_, key, some err) =>
      let errString := "error looking up redirect for " ++ r.path ++ " on key " ++ key
        ++ ": " ++ err
      [Effect.httpError errString statusInternalServerError, Effect.logPrint errString]
    | (targetURL, key, none) =>
      let respond :=
        if proxyMode then [Effect.proxyRequest targetURL]
        else [Effect.httpRedirect targetURL statusSeeOther]
      if key.length > 0 then
        match sendUdpBeacon net key with
        | .error err => [Effect.panic err]
        | .ok sent => sent ++ respond
      else respond

/-- The state change of `mapAdToAdBreakHandler` (`redir.go:229-251`) for the
break `breakID` and the creative `ad`. -/
def mapAdToAdBreak (st : State) (breakID ad : String) : State :=
  let adBreakMappings :=
    if ad = "None" then st.adBreakMappings.erase breakID
    else st.adBreakMappings.insert breakID ad
  let cleared := st.segmentMappings.keys.foldl
    (fun (m : StringMap) (k : String) =>
      if !stringsHasPrefix k breakID then m else m.erase k)
    st.segmentMappings
  let adSegments := (st.adsMap.lookup ad).getD []
  let installed := adSegments.enum.foldl
    (fun (m : StringMap) (p : Nat × String) =>
      m.insert (sprintfKey breakID ((p.1 : Int) + 1)) p.2)
    cleared
  { segmentMappings := installed, adBreakMappings := adBreakMappings, adsMap := st.adsMap }

/-- Source `mapAdToAdBreakHandler` (`redir.go:206`); `unmarshal` is
`json.Unmarshal` into a `map[string]string` (the map, or the text of the error).
`json.Marshal` of the view data (maps and slices of strings) does not fail. -/
def mapAdToAdBreakHandler (unmarshal : String → Except String StringMap) (st : State)
    (r : Request) : State × List Effect :=
  if r.method ≠ "PUT" ∧ r.method ≠ "POST" then
    (st, [Effect.httpError ("Bad request method for add-value: " ++ r.method)
      statusBadRequest])
  else
    match r.body with
    | .error err =>
      let errString := "Could not read request body +" ++ r.bodyText ++ ": " ++ err
      (st, [Effect.httpError errString statusBadRequest, Effect.logPrint errString])
    | .ok bodyBytes =>
      match unmarshal bodyBytes with
      | .error err =>
        let errString := "Could not unmarshal body-bytes into map " ++ bodyBytes ++ ": " ++ err
        (st, [Effect.httpError errString statusBadRequest, Effect.logPrint errString])
      | .ok bodyMap =>
        let breakID := (bodyMap.lookup "break_id").getD ""
        let ad := (bodyMap.lookup "ad").getD ""
        let st' := mapAdToAdBreak st breakID ad
        (st', [Effect.writeJSON (gatherTemplateData st')])

/-- Source `addToSegmentMappings` (`redir.go:328`); `unmarshal` is
`json.Unmarshal` into a `segmentMap` (the value, or the text of the error).  The
result is the new state, what the function returns, and what it logs. -/
def addToSegmentMappings (unmarshal : String → Except String SegmentMap) (st : State)
    (bodyBytes : String) : State × Except String SegmentMap × List Effect :=
  match unmarshal bodyBytes with
  | .error err => (st, .error err, [])
  | .ok mapping =>
    ({ st with segmentMappings := st.segmentMappings.insert mapping.ID mapping.Dest },
      .ok mapping,
      [Effect.logPrint ("Updated mapping:  " ++ mapping.ID ++ "  to  " ++ mapping.Dest)])

/-- Source `segmentMappingHandler` (`redir.go:265`).  The second method test in
the DELETE branch (`redir.go:296`) cannot fail there and is left out. -/
def segmentMappingHandler (unmarshal : String → Except String SegmentMap) (st : State)
    (r : Request) : State × List Effect :=
  if r.method = "PUT" ∨ r.method = "POST" then
    match r.body with
    | .error err =>
      let errString := "Could not read request body +" ++ r.bodyText ++ ": " ++ err
      (st, [Effect.httpError errString statusBadRequest, Effect.logPrint errString])
    | .ok bodyBytes =>
      match addToSegmentMappings unmarshal st bodyBytes with
      | (st', .error _, logged) =>
        let errMsg := "invalid segment-mapping JSON: +" ++ r.bodyText
        (st', logged ++ [Effect.httpError errMsg statusBadRequest, Effect.logPrint errMsg])
      | (st', .ok _, logged) => (st', logged ++ [Effect.writeJSON (gatherTemplateData st')])
  else if r.method = "DELETE" then
    let key := stringsTrimPrefix r.path "/segment/"
    if key = "" then
      (st, [Effect.httpError "missing key for DELETE segment resource" statusBadRequest])
    else
      let st' := { st with segmentMappings := st.segmentMappings.erase key }
      (st', [Effect.writeJSON (gatherTemplateData st')])
  else
    (st, [Effect.httpError ("Bad request method for segment resource: " ++ r.method)
      statusBadRequest])

/-- Source `loadSegDefs` (`redir.go:395`). -/
def loadSegDefs (segmentMappings : StringMap) : StringMap :=
  let segmentMappings := addAdByTemplate segmentMappings "Arrow"
    "http://localhost:8080/ads/BigBuck_Arrow" 3 1 true
  addAdByTemplate segmentMappings "Spikes" "http://localhost:8080/ads/BigBuck_Spikes" 3 2 true

/-- The package-level initialisers (`redir.go:40-46`): three empty maps. -/
def initialState : State :=
  { segmentMappings := ∅, adBreakMappings := ∅, adsMap := ∅ }

/-- Source `main` (`redir.go:424`) up to the call of `http.ListenAndServe`: the
state with which the server starts serving.  `loaded` is what `getAdsMap`
returns; registering the handlers changes no table. -/
def main (loaded : AdsMap) : State :=
  { initialState with adsMap := loaded }

/-! ## Lemmas on the library routines -/

theorem digitChar_toNat (d : Nat) (h : d < 10) : (digitChar d).toNat = 48 + d := by
  interval_cases d <;> decide

theorem digitChar_ne_percent (d : Nat) (h : d < 10) : digitChar d ≠ '%' := by
  interval_cases d <;> decide

theorem digitChar_ne_minus (d : Nat) (h : d < 10) : digitChar d ≠ '-' := by
  interval_cases d <;> decide

theorem mem_formatDigits (fuel u : Nat) (acc : List Char) (c : Char)
    (hc : c ∈ formatDigits fuel u acc) : (∃ d, d < 10 ∧ c = digitChar d) ∨ c ∈ acc := by
  induction fuel generalizing u acc with
  | zero =>
    simp only [formatDigits, List.mem_cons] at hc
    rcases hc with rfl | hc
    · exact Or.inl ⟨u % 10, Nat.mod_lt _ (by norm_num), rfl⟩
    · exact Or.inr hc
  | succ n ih =>
    simp only [formatDigits] at hc
    split at hc
    · rcases ih _ _ hc with h | h
      · exact Or.inl h
      · rcases List.mem_cons.1 h with rfl | h
        · exact Or.inl ⟨u % 10, Nat.mod_lt _ (by norm_num), rfl⟩
        · exact Or.inr h
    · rcases List.mem_cons.1 hc with rfl | h
      · exact Or.inl ⟨u, by omega, rfl⟩
      · exact Or.inr h

theorem mem_formatNat (u : Nat) (c : Char) (hc : c ∈ formatNat u) :
    ∃ d, d < 10 ∧ c = digitChar d := by
  rcases mem_formatDigits u u [] c hc with h | h
  · exact h
  · simp at h

theorem strconvItoa_ne_percent (i : Int) (c : Char) (hc : c ∈ (strconvItoa i).data) :
    c ≠ '%' := by
  unfold strconvItoa at hc
  split at hc
  · rcases List.mem_cons.1 hc with rfl | h
    · decide
    · obtain ⟨d, hd, rfl⟩ := mem_formatNat _ _ h
      exact digitChar_ne_percent d hd
  · obtain ⟨d, hd, rfl⟩ := mem_formatNat _ _ hc
    exact digitChar_ne_percent d hd

/-- Characters that differ from the first character of `old` are copied. -/
theorem replaceFirstChars_skip (o : Char) (os new pre rest : List Char)
    (hpre : ∀ c ∈ pre, c ≠ o) :
    replaceFirstChars (o :: os) new (pre ++ rest)
      = pre ++ replaceFirstChars (o :: os) new rest := by
  induction pre with
  | nil => rfl
  | cons c t ih =>
    have hc : c ≠ o := hpre c (List.mem_cons_self _ _)
    have ht : ∀ c ∈ t, c ≠ o := fun x hx => hpre x (List.mem_cons_of_mem _ hx)
    simp [replaceFirstChars, hc, ih ht]

theorem replaceFirstChars_sn (new : List Char) (ut : List Char)
    (h : ¬ (snMark <:+: ut)) :
    replaceFirstChars snMark new (ut ++ ['_', '%', 's', 'n', '%']) = ut ++ '_' :: new := by
  induction ut with
  | nil => simp [replaceFirstChars, snMark]
  | cons c t ih =>
    have ht : ¬ (snMark <:+: t) := fun hh => h (hh.trans (List.infix_cons (List.infix_refl _)))
    have hp : ¬ (snMark <+: c :: t) := fun hh => h hh.isInfix
    have hno : (c :: (t ++ ['_', '%', 's', 'n', '%'])).take snMark.length ≠ snMark := by
      intro hh
      apply hp
      match t, hh with
      | [], hh => simp [snMark] at hh
      | [_], hh => simp [snMark] at hh
      | [_, _], hh => simp [snMark] at hh
      | _ :: _ :: _ :: r, hh =>
        simp [snMark] at hh
        obtain ⟨rfl, rfl, rfl, rfl⟩ := hh
        exact ⟨r, rfl⟩
    have hrec := ih ht
    show replaceFirstChars snMark new (c :: (t ++ ['_', '%', 's', 'n', '%'])) = _
    rw [replaceFirstChars, if_neg hno, hrec]
    rfl

theorem breakBaseName_data :
    breakBaseName.data = ['%', 'b', 'n', '%'] ++ (['a', 'd', 'b', 'r', 'e', 'a', 'k']
      ++ (['%', 'u', 't', '%'] ++ ['_', '%', 's', 'n', '%'])) := rfl

theorem replaceFirstChars_head (old new rest : List Char) (h : old ≠ []) :
    replaceFirstChars old new (old ++ rest) = new ++ rest := by
  cases old with
  | nil => exact absurd rfl h
  | cons o os => simp [replaceFirstChars]

/-- The closed form of `buildAdSegmentLink` on character lists, for a user token
that does not contain the text `%sn%`. -/
theorem buildAdSegmentLink_data (breakNum : Int) (userToken : String) (segNum : Int)
    (h : ¬ (snMark <:+: userToken.data)) :
    (buildAdSegmentLink breakNum userToken segNum).data
      = (iif (decide (breakNum > 0)) (strconvItoa breakNum) "").data
        ++ (['a', 'd', 'b', 'r', 'e', 'a', 'k'] ++ (userToken.data
        ++ '_' :: (strconvItoa segNum).data)) := by
  have hB : ∀ c ∈ (iif (decide (breakNum > 0)) (strconvItoa breakNum) "").data, c ≠ '%' := by
    intro c hc
    unfold iif at hc
    split at hc
    · exact strconvItoa_ne_percent _ c hc
    · simp at hc
  have hA : ∀ c ∈ ['a', 'd', 'b', 'r', 'e', 'a', 'k'], c ≠ '%' := by decide
  simp only [buildAdSegmentLink, stringsReplace1, breakBaseName_data]
  rw [replaceFirstChars_head _ _ _ (by simp)]
  rw [replaceFirstChars_skip _ _ _ _ _ hB, replaceFirstChars_skip _ _ _ _ _ hA,
    replaceFirstChars_head _ _ _ (by simp)]
  rw [replaceFirstChars_skip _ _ _ _ _ hB, replaceFirstChars_skip _ _ _ _ _ hA]
  have h3 := replaceFirstChars_sn (strconvItoa segNum).data userToken.data h
  rw [snMark] at h3
  rw [h3]

/-- C5 (amended). For every break number, every segment number and every user
token that does not contain the text `%sn%`, `buildAdSegmentLink` yields the
decimal text of the break number (nothing when it is not positive), then
`adbreak`, the user token, `_` and the decimal text of the segment number. -/
theorem buildAdSegmentLink_closed_form (breakNum : Int) (userToken : String) (segNum : Int)
    (h : ¬ ("%sn%".data <:+: userToken.data)) :
    buildAdSegmentLink breakNum userToken segNum
      = (if breakNum > 0 then strconvItoa breakNum else "") ++ "adbreak" ++ userToken
        ++ "_" ++ strconvItoa segNum := by
  apply String.ext
  rw [buildAdSegmentLink_data breakNum userToken segNum h]
  simp only [String.data_append, iif, decide_eq_true_eq]
  simp

/-- C5, at the inputs of the specification: `buildAdSegmentLink(2, "", 5)` is
`2adbreak_5` and `buildAdSegmentLink(0, "", 1)` is `adbreak_1`. -/
theorem buildAdSegmentLink_closed_form_witness :
    buildAdSegmentLink 2 "" 5 = "2adbreak_5" ∧ buildAdSegmentLink 0 "" 1 = "adbreak_1" :=
  ⟨(buildAdSegmentLink_closed_form 2 "" 5 (by decide)).trans (by decide),
   (buildAdSegmentLink_closed_form 0 "" 1 (by decide)).trans (by decide)⟩

/-- C5 as stated fails: with the user token `%sn%` the third substitution hits
the token, and the result is `2adbreak5_%sn%`, not `2adbreak%sn%_5`. -/
theorem buildAdSegmentLink_token_with_mark :
    buildAdSegmentLink 2 "%sn%" 5 = "2adbreak5_%sn%" ∧
    buildAdSegmentLink 2 "%sn%" 5
      ≠ (if (2 : Int) > 0 then strconvItoa 2 else "") ++ "adbreak" ++ "%sn%" ++ "_"
        ++ strconvItoa 5 := by
  decide

/-! ## Decimal texts of different numbers differ -/

theorem foldl_formatDigits (fuel u : Nat) (acc : List Char) (hu : u ≤ fuel) :
    (formatDigits fuel u acc).foldl (fun a c => 10 * a + (c.toNat - 48)) 0
      = acc.foldl (fun a c => 10 * a + (c.toNat - 48)) u := by
  induction fuel generalizing u acc with
  | zero =>
    have h0 : u = 0 := Nat.le_zero.1 hu
    subst h0
    simp [formatDigits, digitChar_toNat 0 (by norm_num)]
  | succ n ih =>
    unfold formatDigits
    split
    · rw [ih (u / 10) _ (by omega)]
      simp only [List.foldl_cons, digitChar_toNat (u % 10) (Nat.mod_lt _ (by norm_num))]
      congr 1
      omega
    · simp only [List.foldl_cons, digitChar_toNat u (by omega)]
      congr 1
      omega

theorem digitsValue_formatNat (u : Nat) : digitsValue (formatNat u) = u := by
  unfold digitsValue formatNat
  rw [foldl_formatDigits u u [] (le_refl u)]
  rfl

theorem formatNat_injective (a b : Nat) (h : formatNat a = formatNat b) : a = b := by
  have := congrArg digitsValue h
  rwa [digitsValue_formatNat, digitsValue_formatNat] at this

theorem strconvItoa_injective (i j : Int) (h : strconvItoa i = strconvItoa j) : i = j := by
  have hminus : ∀ (u : Nat) (l : List Char), formatNat u ≠ '-' :: l := by
    intro u l he
    obtain ⟨d, hd, hc⟩ := mem_formatNat u '-' (by rw [he]; exact List.mem_cons_self _ _)
    exact digitChar_ne_minus d hd hc.symm
  unfold strconvItoa at h
  split at h <;> split at h
  · have := formatNat_injective _ _ (List.cons_injective (congrArg String.data h))
    omega
  · exact absurd (congrArg String.data h).symm (hminus _ _)
  · exact absurd (congrArg String.data h) (hminus _ _)
  · have := formatNat_injective _ _ (congrArg String.data h)
    omega

theorem sprintfKey_injective (s : String) (i j : Int) (h : sprintfKey s i = sprintfKey s j) :
    i = j := by
  apply strconvItoa_injective
  have hd := congrArg String.data h
  simp only [sprintfKey, String.data_append, List.append_assoc] at hd
  exact String.ext (List.append_cancel_left (List.append_cancel_left hd))

theorem buildAdSegmentLink_injective (b i j : Int)
    (h : buildAdSegmentLink b "" i = buildAdSegmentLink b "" j) : i = j := by
  have hno : ¬ (snMark <:+: ("" : String).data) := by decide
  have hd := congrArg String.data h
  rw [buildAdSegmentLink_data b "" i hno, buildAdSegmentLink_data b "" j hno] at hd
  apply strconvItoa_injective
  have h1 := List.append_cancel_left (List.append_cancel_left hd)
  simp only [List.append_cancel_left_eq, List.cons.injEq, true_and] at h1
  exact String.ext (by simpa using h1)

/-! ## Loops that write to a map -/

theorem lookup_foldl_insert_of_not_mem (kvs : List (String × String)) (M : StringMap)
    (k : String) (h : ∀ kv ∈ kvs, kv.1 ≠ k) :
    (kvs.foldl (fun (m : StringMap) kv => m.insert kv.1 kv.2) M).lookup k = M.lookup k := by
  induction kvs generalizing M with
  | nil => rfl
  | cons kv rest ih =>
    rw [List.foldl_cons, ih _ (fun x hx => h x (List.mem_cons_of_mem _ hx))]
    exact AList.lookup_insert_ne (Ne.symm (h kv (List.mem_cons_self _ _)))

theorem lookup_foldl_insert_of_mem (kvs : List (String × String)) (M : StringMap)
    (hnd : (kvs.map Prod.fst).Nodup) (k v : String) (h : (k, v) ∈ kvs) :
    (kvs.foldl (fun (m : StringMap) kv => m.insert kv.1 kv.2) M).lookup k = some v := by
  induction kvs generalizing M with
  | nil => simp at h
  | cons kv rest ih =>
    rw [List.map_cons, List.nodup_cons] at hnd
    rw [List.foldl_cons]
    rcases List.mem_cons.1 h with he | hr
    · subst he
      rw [lookup_foldl_insert_of_not_mem rest _ k]
      · exact AList.lookup_insert M
      · intro x hx hk
        exact hnd.1 (List.mem_map.2 ⟨x, hx, hk⟩)
    · exact ih _ hnd.2 hr

theorem lookup_foldl_erase (ks : List String) (M : StringMap) (b k : String) :
    (ks.foldl (fun (m : StringMap) (x : String) =>
        if !stringsHasPrefix x b then m else m.erase x) M).lookup k
      = if k ∈ ks ∧ stringsHasPrefix k b = true then none else M.lookup k := by
  induction ks generalizing M with
  | nil => simp
  | cons k0 rest ih =>
    rw [List.foldl_cons, ih]
    by_cases hk : k = k0
    · subst hk
      by_cases hp : stringsHasPrefix k b = true
      · simp [hp]
      · simp [hp]
    · by_cases hp0 : stringsHasPrefix k0 b = true
      · simp [hk, hp0, AList.lookup_erase_ne hk]
      · simp [hk, hp0]

theorem lookup_cleared (M : StringMap) (b k : String) :
    (M.keys.foldl (fun (m : StringMap) (x : String) =>
        if !stringsHasPrefix x b then m else m.erase x) M).lookup k
      = if stringsHasPrefix k b = true then none else M.lookup k := by
  rw [lookup_foldl_erase]
  by_cases hp : stringsHasPrefix k b = true
  · by_cases hm : k ∈ M.keys
    · simp [hp, hm]
    · have : M.lookup k = none := AList.lookup_eq_none.2 (fun h => hm (AList.mem_keys.1 h))
      simp [hp, hm, this]
  · simp [hp]

theorem stringsHasPrefix_sprintfKey (b : String) (d : Int) :
    stringsHasPrefix (sprintfKey b d) b = true := by
  simp [stringsHasPrefix, sprintfKey, String.data_append]

theorem lookup_installed (M : StringMap) (b : String) (segs : List String) :
    (∀ (i : Nat) (v : String), segs[i]? = some v →
      (segs.enum.foldl (fun (m : StringMap) (p : Nat × String) =>
          m.insert (sprintfKey b ((p.1 : Int) + 1)) p.2) M).lookup
        (sprintfKey b ((i : Int) + 1)) = some v) ∧
    (∀ k : String, (∀ i : Nat, i < segs.length → k ≠ sprintfKey b ((i : Int) + 1)) →
      (segs.enum.foldl (fun (m : StringMap) (p : Nat × String) =>
          m.insert (sprintfKey b ((p.1 : Int) + 1)) p.2) M).lookup k = M.lookup k) := by
  have hfold : segs.enum.foldl (fun (m : StringMap) (p : Nat × String) =>
        m.insert (sprintfKey b ((p.1 : Int) + 1)) p.2) M
      = (segs.enum.map (fun p : Nat × String => (sprintfKey b ((p.1 : Int) + 1), p.2))).foldl
          (fun (m : StringMap) kv => m.insert kv.1 kv.2) M := by
    rw [List.foldl_map]
  have hkeys : (segs.enum.map (fun p : Nat × String =>
        (sprintfKey b ((p.1 : Int) + 1), p.2))).map Prod.fst
      = (List.range segs.length).map (fun i : Nat => sprintfKey b ((i : Int) + 1)) := by
    rw [← List.enum_map_fst, List.map_map, List.map_map]
    rfl
  have hnd : ((segs.enum.map (fun p : Nat × String =>
        (sprintfKey b ((p.1 : Int) + 1), p.2))).map Prod.fst).Nodup := by
    rw [hkeys]
    refine List.Nodup.map ?_ (List.nodup_range _)
    intro i j hij
    have := sprintfKey_injective b _ _ hij
    omega
  rw [hfold]
  constructor
  · intro i v hv
    apply lookup_foldl_insert_of_mem _ _ hnd
    exact List.mem_map.2 ⟨(i, v), List.mk_mem_enum_iff_getElem?.2 hv, rfl⟩
  · intro k hk
    apply lookup_foldl_insert_of_not_mem
    intro kv hkv heq
    obtain ⟨p, hp, rfl⟩ := List.mem_map.1 hkv
    have hlt : p.1 < segs.length := by
      have := List.mem_enum_iff_getElem?.1 hp
      by_contra hge
      rw [List.getElem?_eq_none (by omega)] at this
      exact absurd this (by simp)
    exact hk p.1 hlt heq.symm

/-! ## Assigning a creative to an ad break -/

/-- C3. The assign-ad-break step of `mapAdToAdBreakHandler` for break `b` and
creative `c`: the break table loses `b` when `c` is `None` and maps `b` to `c`
otherwise, other breaks unchanged; the segment table maps `<b>_<i+1>` to the
`i`-th segment of the catalog entry of `c` (no segment when `c` is not in the
catalog), holds no other key that starts with `b`, and agrees with the old table
on every key that does not start with `b`. -/
theorem mapAdToAdBreak_spec (st : State) (b c : String) :
    (∀ x : String, (mapAdToAdBreak st b c).adBreakMappings.lookup x
        = if x = b then (if c = "None" then none else some c)
          else st.adBreakMappings.lookup x) ∧
    (∀ (i : Nat) (v : String), ((st.adsMap.lookup c).getD [])[i]? = some v →
      (mapAdToAdBreak st b c).segmentMappings.lookup
        (b ++ "_" ++ strconvItoa ((i : Int) + 1)) = some v) ∧
    (∀ k : String,
      (∀ i : Nat, i < ((st.adsMap.lookup c).getD []).length →
        k ≠ b ++ "_" ++ strconvItoa ((i : Int) + 1)) →
      (mapAdToAdBreak st b c).segmentMappings.lookup k
        = if stringsHasPrefix k b = true then none else st.segmentMappings.lookup k) ∧
    (mapAdToAdBreak st b c).adsMap = st.adsMap := by
  refine ⟨?_, ?_, ?_, rfl⟩
  · intro x
    simp only [mapAdToAdBreak]
    by_cases hc : c = "None"
    · by_cases hx : x = b
      · subst hx; simp [hc]
      · simp [hc, hx, AList.lookup_erase_ne hx]
    · by_cases hx : x = b
      · subst hx; simp [hc]
      · simp [hc, hx, AList.lookup_insert_ne hx]
  · intro i v hv
    exact (lookup_installed _ b _).1 i v hv
  · intro k hk
    have h := (lookup_installed (st.segmentMappings.keys.foldl
      (fun (m : StringMap) (x : String) =>
        if !stringsHasPrefix x b then m else m.erase x) st.segmentMappings)
      b ((st.adsMap.lookup c).getD [])).2 k hk
    rw [lookup_cleared] at h
    exact h

/-- C3, at the inputs of the specification: with the catalog
`Spikes -> [a, b, c]`, assigning `Spikes` to `2adbreak` installs `2adbreak_1`,
`2adbreak_2`, `2adbreak_3` and drops the old `2adbreak_9`; assigning `Nonexistent`
to `3adbreak` leaves no key under `3adbreak` and records the assignment. -/
theorem mapAdToAdBreak_spec_witness :
    (mapAdToAdBreak ⟨(∅ : StringMap).insert "2adbreak_9" "X", ∅,
        (∅ : AdsMap).insert "Spikes" ["a", "b", "c"]⟩ "2adbreak" "Spikes").segmentMappings.lookup
      ("2adbreak" ++ "_" ++ strconvItoa (((2 : Nat) : Int) + 1)) = some "c" ∧
    (mapAdToAdBreak ⟨(∅ : StringMap).insert "2adbreak_9" "X", ∅,
        (∅ : AdsMap).insert "Spikes" ["a", "b", "c"]⟩ "2adbreak" "Spikes").segmentMappings.keys
      = ["2adbreak_3", "2adbreak_2", "2adbreak_1"] ∧
    (mapAdToAdBreak ⟨(∅ : StringMap).insert "3adbreak_1" "X", ∅,
        (∅ : AdsMap).insert "Spikes" ["a", "b", "c"]⟩ "3adbreak" "Nonexistent").adBreakMappings.lookup
      "3adbreak" = some "Nonexistent" ∧
    (mapAdToAdBreak ⟨(∅ : StringMap).insert "3adbreak_1" "X", ∅,
        (∅ : AdsMap).insert "Spikes" ["a", "b", "c"]⟩ "3adbreak" "Nonexistent").segmentMappings.keys
      = [] :=
  ⟨(mapAdToAdBreak_spec ⟨(∅ : StringMap).insert "2adbreak_9" "X", ∅,
        (∅ : AdsMap).insert "Spikes" ["a", "b", "c"]⟩ "2adbreak" "Spikes").2.1 2 "c" (by decide),
    by decide,
    ((mapAdToAdBreak_spec ⟨(∅ : StringMap).insert "3adbreak_1" "X", ∅,
        (∅ : AdsMap).insert "Spikes" ["a", "b", "c"]⟩ "3adbreak" "Nonexistent").1
      "3adbreak").trans (by decide),
    by decide⟩

/-- C4 (amended). When the ads catalog has no segment under the name `None`,
after the assign-ad-break step for `b` and `None` no key that starts with `b` is
left in the segment table and `b` is absent from the break table. -/
theorem mapAdToAdBreak_none (st : State) (b : String)
    (h : (st.adsMap.lookup "None").getD [] = []) :
    (∀ k : String, stringsHasPrefix k b = true →
      (mapAdToAdBreak st b "None").segmentMappings.lookup k = none) ∧
    (mapAdToAdBreak st b "None").adBreakMappings.lookup b = none := by
  constructor
  · intro k hk
    have h2 := (lookup_installed (st.segmentMappings.keys.foldl
      (fun (m : StringMap) (x : String) =>
        if !stringsHasPrefix x b then m else m.erase x) st.segmentMappings)
      b ((st.adsMap.lookup "None").getD [])).2 k (by rw [h]; intro i hi; simp at hi)
    rw [lookup_cleared, if_pos hk] at h2
    exact h2
  · simp [mapAdToAdBreak]

/-- C4, at the input of the specification: a store with `1adbreak_1 -> X`, and
the assignment of `None` to `1adbreak`. -/
theorem mapAdToAdBreak_none_witness :
    (mapAdToAdBreak ⟨(∅ : StringMap).insert "1adbreak_1" "X",
        (∅ : StringMap).insert "1adbreak" "Arrow",
        (∅ : AdsMap).insert "Spikes" ["a", "b", "c"]⟩ "1adbreak" "None").segmentMappings.lookup
      "1adbreak_1" = none ∧
    (mapAdToAdBreak ⟨(∅ : StringMap).insert "1adbreak_1" "X",
        (∅ : StringMap).insert "1adbreak" "Arrow",
        (∅ : AdsMap).insert "Spikes" ["a", "b", "c"]⟩ "1adbreak" "None").adBreakMappings.lookup
      "1adbreak" = none :=
  ⟨(mapAdToAdBreak_none ⟨(∅ : StringMap).insert "1adbreak_1" "X",
        (∅ : StringMap).insert "1adbreak" "Arrow",
        (∅ : AdsMap).insert "Spikes" ["a", "b", "c"]⟩ "1adbreak" (by decide)).1
      "1adbreak_1" (by decide),
   (mapAdToAdBreak_none ⟨(∅ : StringMap).insert "1adbreak_1" "X",
        (∅ : StringMap).insert "1adbreak" "Arrow",
        (∅ : AdsMap).insert "Spikes" ["a", "b", "c"]⟩ "1adbreak" (by decide)).2⟩

/-- C4 as stated fails for a catalog with a creative named `None`: its segments
are installed under the break, so a key that starts with `1adbreak` remains. -/
theorem mapAdToAdBreak_none_in_catalog :
    stringsHasPrefix "1adbreak_1" "1adbreak" = true ∧
    (mapAdToAdBreak ⟨(∅ : StringMap).insert "1adbreak_1" "X", ∅,
        (∅ : AdsMap).insert "None" ["x"]⟩ "1adbreak" "None").segmentMappings.lookup
      "1adbreak_1" = some "x" := by
  decide

/-- On a PUT or POST whose body is read and decoded, `mapAdToAdBreakHandler`
performs the step `mapAdToAdBreak` for the body's `break_id` and `ad` and answers
with the view data of the new state. -/
theorem mapAdToAdBreakHandler_step (unmarshal : String → Except String StringMap)
    (st : State) (r : Request) (bodyBytes : String) (bodyMap : StringMap)
    (hm : r.method = "PUT" ∨ r.method = "POST") (hb : r.body = .ok bodyBytes)
    (hu : unmarshal bodyBytes = .ok bodyMap) :
    mapAdToAdBreakHandler unmarshal st r
      = (mapAdToAdBreak st ((bodyMap.lookup "break_id").getD "") ((bodyMap.lookup "ad").getD ""),
         [Effect.writeJSON (gatherTemplateData
           (mapAdToAdBreak st ((bodyMap.lookup "break_id").getD "")
             ((bodyMap.lookup "ad").getD "")))]) := by
  have hne : ¬ (r.method ≠ "PUT" ∧ r.method ≠ "POST") := by
    rintro ⟨h1, h2⟩
    rcases hm with h | h
    · exact h1 h
    · exact h2 h
  simp only [mapAdToAdBreakHandler, if_neg hne, hb, hu]

/-! ## Filling a break from a template -/

theorem foldl_addAdByTemplate (t : String) (b : Int) (m : Nat) (s0 : Int) (M : StringMap) :
    (List.range m).foldl
      (fun (st : Int × StringMap) (i : Nat) =>
        (st.1 + 1,
          st.2.insert (buildAdSegmentLink b "" st.1) (t ++ strconvItoa (i : Int) ++ ".m4s")))
      (s0, M)
      = (s0 + (m : Int),
          ((List.range m).map (fun i : Nat =>
              (buildAdSegmentLink b "" (s0 + (i : Int)),
                t ++ strconvItoa (i : Int) ++ ".m4s"))).foldl
            (fun (x : StringMap) kv => x.insert kv.1 kv.2) M) := by
  induction m with
  | zero => simp
  | succ n ih =>
    rw [List.range_succ, List.foldl_append, ih, List.map_append, List.foldl_append]
    simp only [List.foldl_cons, List.foldl_nil, List.map_cons, List.map_nil, Nat.cast_succ]
    congr 1
    omega

theorem lookup_addAdByTemplate_loop (t : String) (b : Int) (m : Nat) (s0 : Int)
    (M : StringMap) :
    (∀ i : Nat, i < m →
      (((List.range m).foldl
        (fun (st : Int × StringMap) (i : Nat) =>
          (st.1 + 1,
            st.2.insert (buildAdSegmentLink b "" st.1) (t ++ strconvItoa (i : Int) ++ ".m4s")))
        (s0, M)).2).lookup (buildAdSegmentLink b "" (s0 + (i : Int)))
        = some (t ++ strconvItoa (i : Int) ++ ".m4s")) ∧
    (∀ k : String, (∀ i : Nat, i < m → k ≠ buildAdSegmentLink b "" (s0 + (i : Int))) →
      (((List.range m).foldl
        (fun (st : Int × StringMap) (i : Nat) =>
          (st.1 + 1,
            st.2.insert (buildAdSegmentLink b "" st.1) (t ++ strconvItoa (i : Int) ++ ".m4s")))
        (s0, M)).2).lookup k = M.lookup k) := by
  rw [foldl_addAdByTemplate]
  have hnd : (((List.range m).map (fun i : Nat =>
      (buildAdSegmentLink b "" (s0 + (i : Int)),
        t ++ strconvItoa (i : Int) ++ ".m4s"))).map Prod.fst).Nodup := by
    rw [List.map_map]
    refine List.Nodup.map ?_ (List.nodup_range _)
    intro i j hij
    have := buildAdSegmentLink_injective b _ _ hij
    omega
  constructor
  · intro i hi
    apply lookup_foldl_insert_of_mem _ _ hnd
    exact List.mem_map.2 ⟨i, List.mem_range.2 hi, rfl⟩
  · intro k hk
    apply lookup_foldl_insert_of_not_mem
    intro kv hkv heq
    obtain ⟨i, hi, rfl⟩ := List.mem_map.1 hkv
    exact hk i (List.mem_range.1 hi) heq.symm

/-- C10. After `addAdByTemplate(name, t, n, b, hasInit)` with `n >= 0`: with
`hasInit`, the key of segment number 1 maps to `t ++ "_init.mp4"` and the key of
segment number `i + 2` maps to `t ++ dec(i) ++ ".m4s"` for `0 <= i < n`; without
it, the key of segment number `i + 1` does; keys of different segment numbers
differ; every key that is none of these keeps the entry it had. -/
theorem addAdByTemplate_spec (S : StringMap) (name t : String) (n b : Int) (hasInit : Bool)
    (hn : 0 ≤ n) :
    (hasInit = true →
      (addAdByTemplate S name t n b hasInit).lookup (buildAdSegmentLink b "" 1)
        = some (t ++ "_init.mp4")) ∧
    (∀ i : Nat, (i : Int) < n →
      (addAdByTemplate S name t n b hasInit).lookup
          (buildAdSegmentLink b "" ((i : Int) + (if hasInit then 2 else 1)))
        = some (t ++ strconvItoa (i : Int) ++ ".m4s")) ∧
    (∀ i j : Int, buildAdSegmentLink b "" i = buildAdSegmentLink b "" j → i = j) ∧
    (∀ k : String,
      (∀ j : Int, 1 ≤ j → j < n + (if hasInit then 2 else 1) → k ≠ buildAdSegmentLink b "" j) →
      (addAdByTemplate S name t n b hasInit).lookup k = S.lookup k) := by
  have hcast : ((n.toNat : Nat) : Int) = n := Int.toNat_of_nonneg hn
  refine ⟨?_, ?_, fun i j h => buildAdSegmentLink_injective b i j h, ?_⟩
  · intro hinit
    subst hinit
    simp only [addAdByTemplate, if_true]
    rw [(lookup_addAdByTemplate_loop t b n.toNat (1 + 1) _).2]
    · exact AList.lookup_insert S
    · intro i _ heq
      have := buildAdSegmentLink_injective b _ _ heq
      omega
  · intro i hi
    have hlt : i < n.toNat := by omega
    cases hasInit with
    | true =>
      simp only [addAdByTemplate, if_true]
      have h := (lookup_addAdByTemplate_loop t b n.toNat (1 + 1)
        (S.insert (buildAdSegmentLink b "" 1) (t ++ "_init.mp4"))).1 i hlt
      have e : (1 + 1 : Int) + (i : Int) = (i : Int) + 2 := by omega
      rw [e] at h
      exact h
    | false =>
      simp only [addAdByTemplate]
      have h := (lookup_addAdByTemplate_loop t b n.toNat 1 S).1 i hlt
      have e : (1 : Int) + (i : Int) = (i : Int) + 1 := by omega
      rw [e] at h
      exact h
  · intro k hk
    cases hasInit with
    | true =>
      simp only [addAdByTemplate, if_true]
      rw [(lookup_addAdByTemplate_loop t b n.toNat (1 + 1) _).2]
      · exact AList.lookup_insert_ne (hk 1 (le_refl _) (by simp only [if_true]; omega))
      · intro i hi
        exact hk _ (by omega) (by simp only [if_true]; omega)
    | false =>
      simp only [addAdByTemplate, Bool.false_eq_true, if_false]
      rw [(lookup_addAdByTemplate_loop t b n.toNat 1 S).2]
      intro i hi
      exact hk _ (by omega) (by simp only [Bool.false_eq_true, if_false]; omega)

/-- C10, at the call `loadSegDefs` makes for the first creative: three media
segments after an initialisation segment, in break 1. -/
theorem addAdByTemplate_spec_witness :
    (addAdByTemplate ∅ "Arrow" "http://localhost:8080/ads/BigBuck_Arrow" 3 1 true).lookup
        (buildAdSegmentLink 1 "" 1)
      = some ("http://localhost:8080/ads/BigBuck_Arrow" ++ "_init.mp4") ∧
    (addAdByTemplate ∅ "Arrow" "http://localhost:8080/ads/BigBuck_Arrow" 3 1 true).lookup
        (buildAdSegmentLink 1 "" (((2 : Nat) : Int) + (if true = true then 2 else 1)))
      = some ("http://localhost:8080/ads/BigBuck_Arrow" ++ strconvItoa ((2 : Nat) : Int)
          ++ ".m4s") ∧
    (addAdByTemplate ∅ "Arrow" "http://localhost:8080/ads/BigBuck_Arrow" 3 1 true).keys
      = ["1adbreak_4", "1adbreak_3", "1adbreak_2", "1adbreak_1"] :=
  ⟨(addAdByTemplate_spec ∅ "Arrow" "http://localhost:8080/ads/BigBuck_Arrow" 3 1 true
      (by decide)).1 rfl,
   (addAdByTemplate_spec ∅ "Arrow" "http://localhost:8080/ads/BigBuck_Arrow" 3 1 true
      (by decide)).2.1 2 (by decide),
   by decide⟩

/-! ## The view data -/

theorem foldl_append_singleton (l init : List String) :
    l.foldl (fun acc k => acc ++ [k]) init = init ++ l := by
  induction l generalizing init with
  | nil => simp
  | cons a t ih => rw [List.foldl_cons, ih]; simp

theorem sortSliceStable_lt_perm (l : List String) :
    (sortSliceStable (fun a b => a < b) l).Perm l :=
  List.perm_insertionSort _ l

theorem sortSliceStable_lt_sorted (l : List String) :
    (sortSliceStable (fun a b => a < b) l).Pairwise (fun a b => a ≤ b) := by
  haveI : IsTotal String (fun a b => ¬ b < a) :=
    ⟨fun a b => by simp only [not_lt]; exact le_total a b⟩
  haveI : IsTrans String (fun a b => ¬ b < a) :=
    ⟨fun a b c hab hbc => by simp only [not_lt] at *; exact le_trans hab hbc⟩
  have h := List.sorted_insertionSort (fun a b : String => ¬ b < a) l
  exact List.Pairwise.imp (fun hab => not_lt.1 hab) h

/-- C6. `gatherTemplateData` returns the keys of the segment table in strictly
ascending order, each key once and nothing else, together with the segment
table, the fixed list of four break names and the break table. -/
theorem gatherTemplateData_spec (st : State) :
    (gatherTemplateData st).SegmentNames.Pairwise (fun a b => a < b) ∧
    (gatherTemplateData st).SegmentNames.Nodup ∧
    (∀ k : String, k ∈ (gatherTemplateData st).SegmentNames
      ↔ (st.segmentMappings.lookup k).isSome = true) ∧
    (gatherTemplateData st).SegmentNames.length = st.segmentMappings.keys.length ∧
    (gatherTemplateData st).SegmentMappings = st.segmentMappings ∧
    (gatherTemplateData st).AdBreaks = ["1adbreak", "2adbreak", "3adbreak", "4adbreak"] ∧
    (gatherTemplateData st).AdBreakMappings = st.adBreakMappings := by
  have hnames : (gatherTemplateData st).SegmentNames
      = sortSliceStable (fun a b => a < b) st.segmentMappings.keys := by
    simp only [gatherTemplateData, foldl_append_singleton, List.nil_append]
  have hperm := sortSliceStable_lt_perm st.segmentMappings.keys
  have hnd : (sortSliceStable (fun a b => a < b) st.segmentMappings.keys).Nodup :=
    hperm.nodup_iff.2 st.segmentMappings.keys_nodup
  refine ⟨?_, ?_, ?_, ?_, rfl, rfl, rfl⟩
  · rw [hnames]
    exact List.Sorted.lt_of_le (sortSliceStable_lt_sorted _) hnd
  · rw [hnames]; exact hnd
  · intro k
    rw [hnames, hperm.mem_iff, ← AList.mem_keys, ← AList.lookup_isSome]
  · rw [hnames, hperm.length_eq]

/-- C6, on a store with three keys written out of order. -/
theorem gatherTemplateData_spec_witness :
    (gatherTemplateData ⟨(((∅ : StringMap).insert "b" "1").insert "c" "2").insert "a" "3",
      ∅, ∅⟩).SegmentNames.Pairwise (fun a b => a < b) ∧
    (gatherTemplateData ⟨(((∅ : StringMap).insert "b" "1").insert "c" "2").insert "a" "3",
      ∅, ∅⟩).SegmentNames = ["a", "b", "c"] := by
  refine ⟨(gatherTemplateData_spec
    ⟨(((∅ : StringMap).insert "b" "1").insert "c" "2").insert "a" "3", ∅, ∅⟩).1, ?_⟩
  simp [gatherTemplateData, sortSliceStable, List.insertionSort, List.orderedInsert,
    String.lt_iff_toList_lt, AList.keys, AList.insert, List.kinsert, List.kerase]
  decide

/-! ## The resolver -/

theorem regexpFindChars_literal (v : List Char) (hne : v ≠ []) (hnl : '\n' ∉ v) :
    regexpFindChars (piReplValLiteral ++ v) = some (piReplValLiteral ++ v, v) := by
  have htw : v.takeWhile (fun x => x != '\n') = v := by
    rw [List.takeWhile_eq_self_iff]
    intro x hx
    simp only [bne_iff_ne, ne_eq]
    rintro rfl
    exact hnl hx
  have hcons : piReplValLiteral ++ v
      = '/' :: (['p', 'i', 'r', 'e', 'p', 'l', 'v', 'a', 'l', '/'] ++ v) := rfl
  have htake : (piReplValLiteral ++ v).take piReplValLiteral.length = piReplValLiteral := by
    simp
  have hdrop : (piReplValLiteral ++ v).drop piReplValLiteral.length = v := by
    simp
  rw [hcons, regexpFindChars, ← hcons, htake, hdrop, htw]
  simp [hne]

theorem findStringSubmatch_literal (v : String) (hne : v ≠ "") (hnl : '\n' ∉ v.data) :
    findStringSubmatch ("/pireplval/" ++ v) = ["/pireplval/" ++ v, v] := by
  have hv : v.data ≠ [] := fun h => hne (String.ext h)
  have h := regexpFindChars_literal v.data hv hnl
  have hd : ("/pireplval/" ++ v).data = piReplValLiteral ++ v.data := by
    rw [String.data_append]; rfl
  unfold findStringSubmatch
  rw [hd, h]
  have e : (⟨piReplValLiteral ++ v.data⟩ : String) = "/pireplval/" ++ v := String.ext hd.symm
  simp only [e]

/-- The token taken from a match: the loop over `SubexpNames()` stores the
group under `key_value`. -/
theorem redirectLookup_of_match (S : StringMap) (path whole group : String)
    (h : findStringSubmatch path = [whole, group]) :
    redirectLookup S path =
      match S.lookup group with
      | none => (path, group, some ("segment-key not in map: %s" ++ group))
      | some targetURL => (targetURL, group, none) := by
  unfold redirectLookup
  generalize findStringSubmatch path = found at h
  subst h
  have hk : AList.lookup "key_value" (AList.singleton "key_value" group : StringMap)
      = some group := by
    rw [← AList.insert_empty, AList.lookup_insert]
  simp [subexpNames, List.enum, List.enumFrom, hk]
  rw [hk]
  rfl

theorem redirectLookup_of_no_match (S : StringMap) (path : String)
    (h : findStringSubmatch path = []) :
    redirectLookup S path = ("http:/" ++ path, "", none) := by
  unfold redirectLookup
  simp [h]

theorem regexpFindChars_none (l : List Char)
    (h : ∀ pre c rest, l = pre ++ piReplValLiteral ++ c :: rest → c = '\n') :
    regexpFindChars l = none := by
  induction l with
  | nil => rfl
  | cons c0 t ih =>
    have hcond : ¬ ((c0 :: t).take piReplValLiteral.length = piReplValLiteral ∧
        ((c0 :: t).drop piReplValLiteral.length).takeWhile (fun x => x != '\n') ≠ []) := by
      rintro ⟨ht, hw⟩
      have hsplit : c0 :: t = piReplValLiteral ++ (c0 :: t).drop piReplValLiteral.length := by
        conv_lhs => rw [← List.take_append_drop piReplValLiteral.length (c0 :: t), ht]
      cases hd : (c0 :: t).drop piReplValLiteral.length with
      | nil => rw [hd] at hw; exact hw rfl
      | cons x r =>
        rw [hd] at hw hsplit
        have hx : x = '\n' := h [] x r (by simpa using hsplit)
        subst hx
        exact hw (by simp [List.takeWhile])
    rw [regexpFindChars, if_neg hcond]
    exact ih (fun pre c rest he => h (c0 :: pre) c rest (by rw [he]; rfl))

/-- C1 (amended). For every store and every non-empty `v` without a line feed,
`redirectLookup("/pireplval/" + v)` has the token `v`; it returns the stored
destination and no error when `v` is a key, and the original path and an error
when it is not. -/
theorem redirectLookup_pireplval (S : StringMap) (v : String) (hne : v ≠ "")
    (hnl : '\n' ∉ v.data) :
    (redirectLookup S ("/pireplval/" ++ v)).2.1 = v ∧
    (∀ d, S.lookup v = some d → redirectLookup S ("/pireplval/" ++ v) = (d, v, none)) ∧
    (S.lookup v = none →
      redirectLookup S ("/pireplval/" ++ v)
        = ("/pireplval/" ++ v, v, some ("segment-key not in map: %s" ++ v))) := by
  have h := redirectLookup_of_match S _ _ _ (findStringSubmatch_literal v hne hnl)
  refine ⟨?_, ?_, ?_⟩
  · rw [h]; cases S.lookup v <;> rfl
  · intro d hd; rw [h, hd]
  · intro hd; rw [h, hd]

/-- C1, at the inputs of the specification: with `k1` mapped to
`http://x/seg1.m4s`, `/pireplval/k1` resolves to that destination with token
`k1`, and `/pireplval/missing` gives the path, the token `missing` and an error. -/
theorem redirectLookup_pireplval_witness :
    redirectLookup ((∅ : StringMap).insert "k1" "http://x/seg1.m4s") ("/pireplval/" ++ "k1")
      = ("http://x/seg1.m4s", "k1", none) ∧
    redirectLookup ((∅ : StringMap).insert "k1" "http://x/seg1.m4s")
        ("/pireplval/" ++ "missing")
      = ("/pireplval/" ++ "missing", "missing", some ("segment-key not in map: %s" ++ "missing")) :=
  ⟨(redirectLookup_pireplval ((∅ : StringMap).insert "k1" "http://x/seg1.m4s") "k1"
      (by decide) (by decide)).2.1 "http://x/seg1.m4s" (by decide),
   (redirectLookup_pireplval ((∅ : StringMap).insert "k1" "http://x/seg1.m4s") "missing"
      (by decide) (by decide)).2.2 (by decide)⟩

/-- C1 as stated fails for a value with a line feed: for `v = "a\nb"` the token
is `a`, not `v`, and although `v` is a key of the store the call returns the
original path and an error. -/
theorem redirectLookup_line_feed :
    ("a\nb" : String) ≠ "" ∧
    (redirectLookup ((∅ : StringMap).insert "a\nb" "d") ("/pireplval/" ++ "a\nb")).2.1 = "a" ∧
    (redirectLookup ((∅ : StringMap).insert "a\nb" "d") ("/pireplval/" ++ "a\nb")).2.1 ≠ "a\nb" ∧
    ((∅ : StringMap).insert "a\nb" "d").lookup "a\nb" = some "d" ∧
    redirectLookup ((∅ : StringMap).insert "a\nb" "d") ("/pireplval/" ++ "a\nb")
      ≠ ("d", "a\nb", none) := by
  decide

/-- C2 (amended). For every store and every path with no occurrence of
`/pireplval/` followed by a character other than a line feed, `redirectLookup`
returns the target `"http:/" + path`, an empty token and no error. -/
theorem redirectLookup_plain_path (S : StringMap) (path : String)
    (h : ∀ pre c rest, path.data = pre ++ "/pireplval/".data ++ c :: rest → c = '\n') :
    redirectLookup S path = ("http:/" ++ path, "", none) := by
  apply redirectLookup_of_no_match
  unfold findStringSubmatch
  rw [regexpFindChars_none path.data h]

/-- C2, at the input of the specification: `/foo/bar.m3u8` resolves to
`"http:/" + "/foo/bar.m3u8"`, which is `http://foo/bar.m3u8`. -/
theorem redirectLookup_plain_path_witness :
    redirectLookup ((∅ : StringMap).insert "k1" "http://x/seg1.m4s") "/foo/bar.m3u8"
      = ("http://foo/bar.m3u8", "", none) :=
  (redirectLookup_plain_path ((∅ : StringMap).insert "k1" "http://x/seg1.m4s") "/foo/bar.m3u8"
    (fun pre c rest he =>
      absurd (show "/pireplval/".data <:+: "/foo/bar.m3u8".data from
        ⟨pre, c :: rest, by rw [he]⟩) (by decide))).trans (by decide)

/-- C2 as stated fails: the pattern is not anchored, so `/x/pireplval/k1`, which
does not begin with `/pireplval/`, resolves the token `k1`; and for
`/foo/bar.m3u8` the target is `http://foo/bar.m3u8`, not `http:/foo/bar.m3u8`. -/
theorem redirectLookup_unanchored :
    ¬ ("/pireplval/".data <+: "/x/pireplval/k1".data) ∧
    redirectLookup ((∅ : StringMap).insert "k1" "http://x/seg1.m4s") "/x/pireplval/k1"
      = ("http://x/seg1.m4s", "k1", none) ∧
    redirectLookup ((∅ : StringMap).insert "k1" "http://x/seg1.m4s") "/x/pireplval/k1"
      ≠ ("http:/" ++ "/x/pireplval/k1", "", none) ∧
    redirectLookup (∅ : StringMap) "/foo/bar.m3u8" ≠ ("http:/foo/bar.m3u8", "", none) := by
  decide

/-! ## The catch-all handler -/

theorem length_pos_iff_ne_empty (k : String) : k.length > 0 ↔ k ≠ "" := by
  rw [String.length, gt_iff_lt, List.length_pos]
  constructor
  · intro h he; exact h (by rw [he])
  · intro h he; exact h (String.ext he)

/-- C7 (amended). The handler built by `redirectHandler`, for every outcome of
the network calls: a request that is not a GET gets the status 400 and nothing
else happens; a GET whose lookup gives an error gets the status 500 (and a log
line), with no beacon, redirect or proxy; a GET whose lookup succeeds with an
empty token sends no beacon and calls `http.Redirect` with the target and the
status 303, or `proxyRequest` with the target in proxy mode; with a non-empty
token, the handler panics without redirect or proxy when the listener address
does not resolve, and otherwise writes one datagram with the token to
`localhost:1234` exactly when the dial succeeds (printing a line when the dial
or the write fails) and then redirects or proxies in the same way. -/
theorem redirectHandler_spec (proxyMode : Bool) (net : Network) (st : State) (r : Request) :
    (r.method ≠ "GET" →
      redirectHandler proxyMode net st r
        = [Effect.httpError ("Bad request method for pireplval: " ++ r.method) 400]) ∧
    (r.method = "GET" → ∀ target token err : String,
      redirectLookup st.segmentMappings r.path = (target, token, some err) →
      redirectHandler proxyMode net st r
        = [Effect.httpError ("error looking up redirect for " ++ r.path ++ " on key "
              ++ token ++ ": " ++ err) 500,
           Effect.logPrint ("error looking up redirect for " ++ r.path ++ " on key "
              ++ token ++ ": " ++ err)]) ∧
    (r.method = "GET" → ∀ target : String,
      redirectLookup st.segmentMappings r.path = (target, "", none) →
      redirectHandler proxyMode net st r
        = [if proxyMode = true then Effect.proxyRequest target
           else Effect.httpRedirect target 303]) ∧
    (r.method = "GET" → ∀ target token : String,
      redirectLookup st.segmentMappings r.path = (target, token, none) → token ≠ "" →
      (∀ err : String, net.resolveErr = some err →
        redirectHandler proxyMode net st r = [Effect.panic err]) ∧
      (net.resolveErr = none →
        redirectHandler proxyMode net st r
          = (match net.dialErr, net.writeErr with
             | some _, _ =>
               [Effect.printf "UDP Beacon Error: Could not resolve localhost:1234\n"]
             | none, some _ =>
               [Effect.udpWrite "localhost:1234" token,
                Effect.printf "UDP Beacon Error: Could not send to localhost:1234\n"]
             | none, none => [Effect.udpWrite "localhost:1234" token])
            ++ [if proxyMode = true then Effect.proxyRequest target
                else Effect.httpRedirect target 303] ∧
        (Effect.udpWrite "localhost:1234" token ∈ redirectHandler proxyMode net st r
          ↔ net.dialErr = none))) := by
  have hlen : ¬ ("localhost:1234".length < 8) := by decide
  refine ⟨?_, ?_, ?_, ?_⟩
  · intro hm
    simp [redirectHandler, hm, statusBadRequest]
  · intro hm target token err h
    simp [redirectHandler, hm, h, statusInternalServerError]
  · intro hm target h
    cases proxyMode <;> simp [redirectHandler, hm, h, statusSeeOther]
  · intro hm target token h hk
    have hpos : 0 < token.length := (length_pos_iff_ne_empty token).2 hk
    constructor
    · intro err he
      simp [redirectHandler, hm, h, hpos, sendUdpBeacon, udpListener, if_neg hlen, he]
    · intro hr
      rcases hd : net.dialErr with _ | de <;> rcases hw : net.writeErr with _ | we <;>
        cases proxyMode <;>
        simp [redirectHandler, hm, h, hpos, sendUdpBeacon, udpListener, if_neg hlen, hr, hd, hw,
          statusSeeOther]

/-- C7, on four requests in redirect mode: a POST; a GET of an unknown token; a
GET of the token `k1` with a working network; a GET of a path without token. -/
theorem redirectHandler_spec_witness :
    redirectHandler false ⟨none, none, none⟩
        ⟨(∅ : StringMap).insert "k1" "http://x/seg1.m4s", ∅, ∅⟩
        ⟨"POST", "/pireplval/k1", .ok "", ""⟩
      = [Effect.httpError ("Bad request method for pireplval: " ++ "POST") 400] ∧
    redirectHandler false ⟨none, none, none⟩
        ⟨(∅ : StringMap).insert "k1" "http://x/seg1.m4s", ∅, ∅⟩
        ⟨"GET", "/pireplval/k2", .ok "", ""⟩
      = [Effect.httpError ("error looking up redirect for " ++ "/pireplval/k2" ++ " on key "
              ++ "k2" ++ ": " ++ "segment-key not in map: %sk2") 500,
         Effect.logPrint ("error looking up redirect for " ++ "/pireplval/k2" ++ " on key "
              ++ "k2" ++ ": " ++ "segment-key not in map: %sk2")] ∧
    redirectHandler false ⟨none, none, none⟩
        ⟨(∅ : StringMap).insert "k1" "http://x/seg1.m4s", ∅, ∅⟩
        ⟨"GET", "/pireplval/k1", .ok "", ""⟩
      = [Effect.udpWrite "localhost:1234" "k1"]
        ++ [if false = true then Effect.proxyRequest "http://x/seg1.m4s"
            else Effect.httpRedirect "http://x/seg1.m4s" 303] ∧
    redirectHandler false ⟨none, none, none⟩
        ⟨(∅ : StringMap).insert "k1" "http://x/seg1.m4s", ∅, ∅⟩
        ⟨"GET", "/foo/bar.m3u8", .ok "", ""⟩
      = [if false = true then Effect.proxyRequest "http://foo/bar.m3u8"
         else Effect.httpRedirect "http://foo/bar.m3u8" 303] :=
  ⟨(redirectHandler_spec false ⟨none, none, none⟩
      ⟨(∅ : StringMap).insert "k1" "http://x/seg1.m4s", ∅, ∅⟩
      ⟨"POST", "/pireplval/k1", .ok "", ""⟩).1 (by decide),
   (redirectHandler_spec false ⟨none, none, none⟩
      ⟨(∅ : StringMap).insert "k1" "http://x/seg1.m4s", ∅, ∅⟩
      ⟨"GET", "/pireplval/k2", .ok "", ""⟩).2.1 rfl "/pireplval/k2" "k2"
      "segment-key not in map: %sk2" (by decide),
   ((redirectHandler_spec false ⟨none, none, none⟩
      ⟨(∅ : StringMap).insert "k1" "http://x/seg1.m4s", ∅, ∅⟩
      ⟨"GET", "/pireplval/k1", .ok "", ""⟩).2.2.2 rfl "http://x/seg1.m4s" "k1" (by decide)
      (by decide)).2 rfl |>.1,
   (redirectHandler_spec false ⟨none, none, none⟩
      ⟨(∅ : StringMap).insert "k1" "http://x/seg1.m4s", ∅, ∅⟩
      ⟨"GET", "/foo/bar.m3u8", .ok "", ""⟩).2.2.1 rfl "http://foo/bar.m3u8" (by decide)⟩

/-- C7 as stated fails when the listener address does not resolve: a GET of the
known token `k1` makes the handler panic, and it neither writes a datagram nor
redirects; and when the dial fails, the token is not empty but no datagram is
written. -/
theorem redirectHandler_beacon_failure :
    redirectLookup ((∅ : StringMap).insert "k1" "http://x/seg1.m4s") "/pireplval/k1"
      = ("http://x/seg1.m4s", "k1", none) ∧
    redirectHandler false ⟨some "no such host", none, none⟩
        ⟨(∅ : StringMap).insert "k1" "http://x/seg1.m4s", ∅, ∅⟩
        ⟨"GET", "/pireplval/k1", .ok "", ""⟩
      = [Effect.panic "no such host"] ∧
    redirectHandler false ⟨some "no such host", none, none⟩
        ⟨(∅ : StringMap).insert "k1" "http://x/seg1.m4s", ∅, ∅⟩
        ⟨"GET", "/pireplval/k1", .ok "", ""⟩
      ≠ [Effect.udpWrite "localhost:1234" "k1", Effect.httpRedirect "http://x/seg1.m4s" 303] ∧
    redirectHandler false ⟨none, some "network is unreachable", none⟩
        ⟨(∅ : StringMap).insert "k1" "http://x/seg1.m4s", ∅, ∅⟩
        ⟨"GET", "/pireplval/k1", .ok "", ""⟩
      = [Effect.printf "UDP Beacon Error: Could not resolve localhost:1234\n",
         Effect.httpRedirect "http://x/seg1.m4s" 303] := by
  decide

/-! ## Deleting a segment mapping -/

/-- C8, at the request `DELETE /segment` on a store that holds the key
`/segment`: the path has no key after `/segment/`, yet the handler takes the
whole path as the key, removes that entry and answers with the view data, not
with the status 400. -/
theorem segmentMappingHandler_delete_without_key :
    stringsTrimPrefix "/segment" "/segment/" = "/segment" ∧
    ((∅ : StringMap).insert "/segment" "d").lookup "/segment" = some "d" ∧
    (segmentMappingHandler (fun _ => .error "") ⟨(∅ : StringMap).insert "/segment" "d", ∅, ∅⟩
        ⟨"DELETE", "/segment", .ok "", ""⟩).1.segmentMappings.lookup "/segment" = none ∧
    (segmentMappingHandler (fun _ => .error "") ⟨(∅ : StringMap).insert "/segment" "d", ∅, ∅⟩
        ⟨"DELETE", "/segment", .ok "", ""⟩).2
      = [Effect.writeJSON ⟨[], ∅, adBreakPrefixes, ∅⟩] ∧
    (segmentMappingHandler (fun _ => .error "") ⟨(∅ : StringMap).insert "/segment" "d", ∅, ∅⟩
        ⟨"DELETE", "/segment/", .ok "", ""⟩).2
      = [Effect.httpError "missing key for DELETE segment resource" 400] := by
  refine ⟨by decide, by decide, by decide, ?_, by decide⟩
  rfl

/-! ## The state at startup -/

/-- C9, on the code: `main` never calls `loadSegDefs`, so the server starts with
an empty segment table, whatever catalog was loaded; the eight mappings named in
the claim are what `loadSegDefs` would install. -/
theorem main_segmentMappings (loaded : AdsMap) :
    (main loaded).segmentMappings.keys = [] ∧
    (main loaded).segmentMappings.lookup "1adbreak_1" = none ∧
    (loadSegDefs ∅).lookup "1adbreak_1"
      = some "http://localhost:8080/ads/BigBuck_Arrow_init.mp4" ∧
    (loadSegDefs ∅).lookup "1adbreak_2" = some "http://localhost:8080/ads/BigBuck_Arrow0.m4s" ∧
    (loadSegDefs ∅).lookup "1adbreak_3" = some "http://localhost:8080/ads/BigBuck_Arrow1.m4s" ∧
    (loadSegDefs ∅).lookup "1adbreak_4" = some "http://localhost:8080/ads/BigBuck_Arrow2.m4s" ∧
    (loadSegDefs ∅).lookup "2adbreak_1"
      = some "http://localhost:8080/ads/BigBuck_Spikes_init.mp4" ∧
    (loadSegDefs ∅).lookup "2adbreak_2" = some "http://localhost:8080/ads/BigBuck_Spikes0.m4s" ∧
    (loadSegDefs ∅).lookup "2adbreak_3" = some "http://localhost:8080/ads/BigBuck_Spikes1.m4s" ∧
    (loadSegDefs ∅).lookup "2adbreak_4" = some "http://localhost:8080/ads/BigBuck_Spikes2.m4s" := by
  refine ⟨rfl, rfl, ?_, ?_, ?_, ?_, ?_, ?_, ?_, ?_⟩ <;> decide


end Redir
